import Mathlib

/-!
Verification of the `fitting_text_distance` repository: shallow embedding of
the weighted vectorization engine (`fitting_vectorization/vectorization.py`,
`fitting_vectorization/vector_from_iterable.py`) and of the Jensen-Shannon
distance (`distance/jensen_shannon_distance.py`, `distance/distribution.py`),
together with theorems settling the specification claims.

Numeric values (numpy float arrays in the source) are modelled as real
numbers; vectors are lists of reals aligned with a list of keys; the
item-by-bag incidence matrix stores the natural-number multiplicities that
the source keeps as floats.  Python dictionaries are modelled as association
lists (`List (κ × β)`, first binding wins, mirroring unique dict keys), and
a function that can raise a `ValueError` returns an `Option`.

The repository files `tools/matrix_operations.py` and
`fitting_vectorization/vector_from_dict.py` are not part of the sources at
hand; the definitions taken from them are modelled from the specification
and are marked `Modelled from the spec:` in their doc comments.
-/

namespace FTD

variable {κ : Type} [DecidableEq κ]

/-- First-occurrence deduplication of a list, mirroring the key order of a
Python `dict`/`Counter` built by insertion: each key keeps the position of
its first appearance. Used for `VectorFromDict.index_map` construction. -/
def first_occurrences : List κ → List κ
  | [] => []
  | a :: l => a :: first_occurrences (l.filter (fun b => b ≠ a))
termination_by l => l.length
decreasing_by
  simp only [List.length_cons]
  exact Nat.lt_succ_of_le (l.length_filter_le _)

/-- Modelled from the spec: `IndexedKeySpace.index_of` via Python
`index_map.get(key, None)` — the dense index of `k` among `keys`
(first match), `none` when `k` is absent (`vector_from_dict.py` missing). -/
def index_map (keys : List κ) (k : κ) : Option ℕ :=
  match keys with
  | [] => none
  | a :: l => if a = k then some 0 else (index_map l k).map (· + 1)

/-- Association-list lookup modelling Python `dict` access: the value of the
first binding of `k`, `none` when `k` is not a key. -/
def assoc_lookup {β : Type} (m : List (κ × β)) (k : κ) : Option β :=
  match m with
  | [] => none
  | p :: rest => if p.1 = k then some p.2 else assoc_lookup rest k

/-- Modelled from the spec: `VectorFromDict.__call__` (file
`vector_from_dict.py` missing from the sources).  Per §4.2/§4.3 of the spec:
the mapping's values are used directly as coefficients; unknown keys raise a
`ValueError` (modelled `none`) when not silent and are dropped when silent;
omitted known keys get coefficient `0` (full replace). -/
def vector_from_dict (keys : List κ) (m : List (κ × ℝ)) (silent : Bool) : Option (List ℝ) :=
  if silent = false ∧ ∃ p ∈ m, p.1 ∉ keys then none
  else some (keys.map (fun k => (assoc_lookup m k).getD 0))

/-- `VectorFromIterable.__call__` on a non-dict iterable, with the weight
function `lambda _, __: 1.` that `Vectorization.__init__` installs on both
of its `VectorFromIterable` instances: the iterable is turned into the dict
`{key: 1. for key in Counter(iterable)}` and passed to
`VectorFromDict.__call__`. -/
def vfi_call_list (keys : List κ) (silent : Bool) (input : List κ) : Option (List ℝ) :=
  vector_from_dict keys ((first_occurrences input).map (fun k => (k, (1 : ℝ)))) silent

/-- Modelled from the spec: `matrix_from_bags_and_index_maps` from the
missing `tools/matrix_operations.py` — the incidence matrix `M` with
`M[i][j]` the multiplicity of item `i` in bag `j` (spec §3, "Incidence
matrix"), rows indexed like `items`, columns like `bags`. -/
def matrix_from_bags (items : List κ) (bags : List (List κ)) : List (List ℕ) :=
  items.map (fun it => bags.map (fun b => b.count it))

/-- Modelled from the spec: `dot_matrix_dot_products(w_I, M, w_B, v)` from
the missing `tools/matrix_operations.py` — per spec §4.3 the incidence
matrix applied to the elementwise product of the bag vector and the bag
weights, then elementwise-scaled by the item weights:
`w_I ⊙ (M · (w_B ⊙ v))`. -/
def dot_matrix_dot_products (wI : List ℝ) (M : List (List ℕ)) (wB v : List ℝ) : List ℝ :=
  List.zipWith (· * ·) wI
    (M.map (fun row => (List.zipWith (fun (m : ℕ) (x : ℝ) => (m : ℝ) * x) row
      (List.zipWith (· * ·) wB v)).sum))

/-- Modelled from the spec: `count_nonzero_entries_in_matrix_row` from the
missing `tools/matrix_operations.py` — the number of nonzero entries of row
`i` of the matrix. -/
def count_nonzero_entries_in_matrix_row (M : List (List ℕ)) (i : ℕ) : ℕ :=
  (M.getD i []).countP (fun x => x ≠ 0)

/-- `np.log(numerator / denominator)` guarded on a zero denominator,
mirroring `log_of_ratio_zero_if_null_denominator` in `vectorization.py`. -/
noncomputable def log_of_ratio_zero_if_null_denominator (numerator denominator : ℕ) : ℝ :=
  if denominator = 0 then 0 else Real.log ((numerator : ℝ) / (denominator : ℝ))

/-- State of a `Vectorization` object (`vectorization.py`): the item and bag
key spaces (the `index_map` key orders of the two `VectorFromIterable`
attributes), the item-by-bag incidence matrix, and the two weight vectors. -/
structure Vectorization (κ : Type) where
  itemKeys : List κ
  bagKeys : List (List κ)
  item_bag_matrix : List (List ℕ)
  bag_weights_vector : List ℝ
  item_weights_vector : List ℝ

/-- `Vectorization.set_bag_weights(bag_to_weight, silent=False)` with a dict
argument: replaces the bag-weight vector by
`self.bag_vector_representation(bag_to_weight, silent=silent)`. -/
def Vectorization.set_bag_weights (v : Vectorization κ) (m : List (List κ × ℝ))
    (silent : Bool := false) : Option (Vectorization κ) :=
  (vector_from_dict v.bagKeys m silent).map (fun w => { v with bag_weights_vector := w })

/-- `Vectorization.set_item_weights(item_to_weight, silent=True)` with a dict
argument: replaces the item-weight vector by
`self.item_vector_representation(item_to_weight, silent=silent)`. -/
def Vectorization.set_item_weights (v : Vectorization κ) (m : List (κ × ℝ))
    (silent : Bool := true) : Option (Vectorization κ) :=
  (vector_from_dict v.itemKeys m silent).map (fun w => { v with item_weights_vector := w })

/-- `Vectorization.set_bag_weights` with a non-dict iterable argument (used
by `initialize_bag_weights_vector` when `tfidf` is false): the iterable goes
through `VectorFromIterable.__call__`'s `Counter` path with the constant-one
weight function. -/
def Vectorization.set_bag_weights_from_list (v : Vectorization κ) (bags : List (List κ))
    (silent : Bool := false) : Option (Vectorization κ) :=
  (vfi_call_list v.bagKeys silent bags).map (fun w => { v with bag_weights_vector := w })

/-- `Vectorization.set_item_weights` with a non-dict iterable argument (used
by `initialize_item_weights_vector` when no explicit weights and no tfidf
are requested, where the iterable is `self.items()`). -/
def Vectorization.set_item_weights_from_list (v : Vectorization κ) (items : List κ)
    (silent : Bool := true) : Option (Vectorization κ) :=
  (vfi_call_list v.itemKeys silent items).map (fun w => { v with item_weights_vector := w })

/-- `Vectorization.__call__(bags)`: the bag-indicator vector of the queried
collection through `self.bag_vector_representation` (silent=False), then
`dot_matrix_dot_products(item_weights, M, bag_weights, vector)`. -/
def Vectorization.call (v : Vectorization κ) (qbags : List (List κ)) : Option (List ℝ) :=
  (vfi_call_list v.bagKeys false qbags).map
    (fun vec => dot_matrix_dot_products v.item_weights_vector v.item_bag_matrix
      v.bag_weights_vector vec)

/-- `Vectorization.get_bag_weight(bag)`: `ValueError` (modelled `none`) when
the bag is not in the bag index map, otherwise the entry of the bag-weight
vector at the bag's index. -/
def Vectorization.get_bag_weight (v : Vectorization κ) (b : List κ) : Option ℝ :=
  match index_map v.bagKeys b with
  | none => none
  | some i => v.bag_weights_vector[i]?

/-- `Vectorization.get_item_weight(item)`: `ValueError` (modelled `none`)
when the item is not in the item index map, otherwise the entry of the
item-weight vector at the item's index. -/
def Vectorization.get_item_weight (v : Vectorization κ) (it : κ) : Option ℝ :=
  match index_map v.itemKeys it with
  | none => none
  | some i => v.item_weights_vector[i]?

/-- `Vectorization.count_bags_containing_item(item)`: `0` when the item is
not in `self.items()`, otherwise the number of nonzero entries of the
item's row of the incidence matrix. -/
def Vectorization.count_bags_containing_item (v : Vectorization κ) (it : κ) : ℕ :=
  if it ∈ v.itemKeys then
    count_nonzero_entries_in_matrix_row v.item_bag_matrix ((index_map v.itemKeys it).getD 0)
  else 0

/-- `Vectorization.tfidf_bag_weights()`: the dict `{bag: 1 / len(bag)}`. -/
noncomputable def Vectorization.tfidf_bag_weights (v : Vectorization κ) : List (List κ × ℝ) :=
  v.bagKeys.map (fun b => (b, 1 / (b.length : ℝ)))

/-- `Vectorization.tfidf_item_weights()`: the dict
`{item: log_of_ratio_zero_if_null_denominator(number_of_bags,
count_bags_containing_item(item))}`. -/
noncomputable def Vectorization.tfidf_item_weights (v : Vectorization κ) : List (κ × ℝ) :=
  v.itemKeys.map (fun it =>
    (it, log_of_ratio_zero_if_null_denominator v.bagKeys.length (v.count_bags_containing_item it)))

/-- `Vectorization.initialize_bag_weights_vector(bags, tfidf)` for a non-dict
`bags` argument: replace `bags` by `tfidf_bag_weights()` when `tfidf`, then
`set_bag_weights`. -/
noncomputable def Vectorization.init_bag_weights_vector (v : Vectorization κ)
    (bags : List (List κ)) (tfidf : Bool) : Option (Vectorization κ) :=
  if tfidf then v.set_bag_weights v.tfidf_bag_weights
  else v.set_bag_weights_from_list bags

/-- `Vectorization.initialize_item_weights_vector(item_to_weight, tfidf)`:
when no weights are given, use `tfidf_item_weights()` if `tfidf` and the
plain item list (weight 1 each) otherwise; then `set_item_weights`. -/
noncomputable def Vectorization.init_item_weights_vector (v : Vectorization κ)
    (item_to_weight : Option (List (κ × ℝ))) (tfidf : Bool) : Option (Vectorization κ) :=
  match item_to_weight with
  | some m => v.set_item_weights m
  | none =>
    if tfidf then v.set_item_weights v.tfidf_item_weights
    else v.set_item_weights_from_list v.itemKeys

/-- `Vectorization.__init__(bags, item_to_weight=None, tfidf=False)` for a
non-dict `bags` argument: the bag space is the first-occurrence order of the
bags, the item space the first-occurrence order of `chain(*bags)`, the
matrix `matrix_from_bags_and_index_maps(bags, ...)`; then the two weight
vectors are initialized. -/
noncomputable def mkVectorization (bags : List (List κ)) (item_to_weight : Option (List (κ × ℝ)))
    (tfidf : Bool) : Option (Vectorization κ) :=
  let v0 : Vectorization κ :=
    { itemKeys := first_occurrences bags.flatten
      bagKeys := first_occurrences bags
      item_bag_matrix := matrix_from_bags (first_occurrences bags.flatten) (first_occurrences bags)
      bag_weights_vector := []
      item_weights_vector := [] }
  (v0.init_bag_weights_vector bags tfidf).bind
    (fun v1 => v1.init_item_weights_vector item_to_weight tfidf)

end FTD

namespace FTD

/-- `scalar_product` from the missing `tools/matrix_operations.py`, modelled
from the spec: the dot product of two equal-length float vectors (used by
`Distribution.get_moment`). -/
def scalar_product (a b : List ℝ) : ℝ :=
  (List.zipWith (· * ·) a b).sum

/-- `Distribution` (`distance/distribution.py`): parallel lists of values
and probabilities. The `ValueError` on a length mismatch is not modelled
here because every construction site below produces equal lengths. -/
structure Distribution where
  values : List ℝ
  probabilities : List ℝ

/-- `Distribution.get_moment(order)`:
`scalar_product(probabilities, values ** order)` (elementwise power). -/
def Distribution.get_moment (d : Distribution) (order : ℕ) : ℝ :=
  scalar_product d.probabilities (d.values.map (· ^ order))

/-- `Distribution.get_mean()`: the first moment. -/
def Distribution.get_mean (d : Distribution) : ℝ :=
  d.get_moment 1

/-- `probabilities_from_vector` from the missing
`tools/matrix_operations.py`, modelled from the spec: renormalizes a
nonnegative nonzero vector to a probability distribution by dividing each
coefficient by the coefficient sum (spec §4.4). -/
noncomputable def probabilities_from_vector (v : List ℝ) : List ℝ :=
  v.map (fun x => x / v.sum)

/-- Modelled from the spec: `information_log_from_vector` from the missing
`tools/matrix_operations.py` — the elementwise information logarithm of a
probability vector, with the information-theoretic convention that the
entry `0` is mapped to `0` (this convention is what makes spec §8 property
4, `distance(v, v) == 0`, hold for vectors with zero components). -/
noncomputable def information_log_from_vector (v : List ℝ) : List ℝ :=
  v.map (fun x => if x = 0 then 0 else Real.log x)

/-- `mixture_from_probabilities`: the elementwise 50/50 mixture
`0.5 * p0 + 0.5 * p1` (`jensen_shannon_distance.py`). -/
noncomputable def mixture_from_probabilities (p0 p1 : List ℝ) : List ℝ :=
  List.zipWith (fun a b => 0.5 * a + 0.5 * b) p0 p1

/-- `concatenate_vectors` from the missing `tools/matrix_operations.py`,
modelled from the spec: vector concatenation. -/
def concatenate_vectors (a b : List ℝ) : List ℝ :=
  a ++ b

/-- `jensen_shannon_distribution_from_probabilities(p0, p1)`
(`jensen_shannon_distance.py`): the distribution whose values are the two
information-gain vectors `log p − log mixture` concatenated and whose
probabilities are `0.5 * p0` and `0.5 * p1` concatenated. -/
noncomputable def jensen_shannon_distribution_from_probabilities (p0 p1 : List ℝ) : Distribution :=
  let mixture := mixture_from_probabilities p0 p1
  let values0 :=
    List.zipWith (· - ·) (information_log_from_vector p0) (information_log_from_vector mixture)
  let values1 :=
    List.zipWith (· - ·) (information_log_from_vector p1) (information_log_from_vector mixture)
  { values := concatenate_vectors values0 values1
    probabilities := concatenate_vectors (p0.map (fun x => 0.5 * x)) (p1.map (fun x => 0.5 * x)) }

/-- `JensenShannonDistance.__call__(vector0, vector1)`: the square root of
the mean of the Jensen-Shannon distribution of the renormalized inputs. -/
noncomputable def jensenShannonDistance (v0 v1 : List ℝ) : ℝ :=
  Real.sqrt ((jensen_shannon_distribution_from_probabilities
    (probabilities_from_vector v0) (probabilities_from_vector v1)).get_mean)

/-- `JensenShannonDistance.first_partial_gradient(vector0, vector1)`: the
source computes `(log p0 − log mixture) / 4. / self(vector0, vector1)` with
no guard on the divisor; when `self(vector0, vector1)` is `0` the numpy
division by zero produces a non-numeric (NaN) array, modelled here as
`none`.  When the distance is nonzero the result is the real vector the
source computes. -/
noncomputable def firstPartialGradient (v0 v1 : List ℝ) : Option (List ℝ) :=
  let p0 := probabilities_from_vector v0
  let p1 := probabilities_from_vector v1
  let mixture := mixture_from_probabilities p0 p1
  let d := jensenShannonDistance v0 v1
  if d = 0 then none
  else some ((List.zipWith (· - ·) (information_log_from_vector p0)
    (information_log_from_vector mixture)).map (fun x => x / (4 * d)))

end FTD

namespace FTD

variable {κ : Type} [DecidableEq κ]

theorem mem_first_occurrences : ∀ (l : List κ) (a : κ), a ∈ first_occurrences l ↔ a ∈ l
  | [], _ => by simp [first_occurrences]
  | b :: l, a => by
    rw [first_occurrences]
    have ih := mem_first_occurrences (l.filter (fun c => c ≠ b)) a
    by_cases hab : a = b
    · subst hab
      simp
    · simp only [List.mem_cons, ih, List.mem_filter, decide_eq_true_eq]
      constructor
      · rintro (rfl | ⟨h, -⟩)
        · exact Or.inl rfl
        · exact Or.inr h
      · rintro (rfl | h)
        · exact Or.inl rfl
        · exact Or.inr ⟨h, hab⟩
termination_by l => l.length
decreasing_by
  simp only [List.length_cons]
  exact Nat.lt_succ_of_le (l.length_filter_le _)

theorem nodup_first_occurrences : ∀ (l : List κ), (first_occurrences l).Nodup
  | [] => by simp [first_occurrences]
  | b :: l => by
    rw [first_occurrences]
    refine List.nodup_cons.mpr ⟨?_, nodup_first_occurrences _⟩
    rw [mem_first_occurrences]
    simp [List.mem_filter]
termination_by l => l.length
decreasing_by
  simp only [List.length_cons]
  exact Nat.lt_succ_of_le (l.length_filter_le _)

theorem index_map_eq_none {keys : List κ} {k : κ} : index_map keys k = none ↔ k ∉ keys := by
  induction keys with
  | nil => simp [index_map]
  | cons a l ih =>
    rw [index_map]
    by_cases h : a = k
    · simp [h]
    · simp [h, Option.map_eq_none', ih, Ne.symm h]

theorem index_map_some {keys : List κ} {k : κ} {i : ℕ} (h : index_map keys k = some i) :
    ∃ hi : i < keys.length, keys.get ⟨i, hi⟩ = k := by
  induction keys generalizing i with
  | nil => simp [index_map] at h
  | cons a l ih =>
    rw [index_map] at h
    by_cases hak : a = k
    · rw [if_pos hak] at h
      obtain rfl : (0 : ℕ) = i := Option.some.inj h
      exact ⟨Nat.succ_pos _, hak⟩
    · rw [if_neg hak, Option.map_eq_some'] at h
      obtain ⟨j, hj, rfl⟩ := h
      obtain ⟨hlt, hget⟩ := ih hj
      exact ⟨Nat.succ_lt_succ hlt, hget⟩

theorem index_map_isSome_of_mem {keys : List κ} {k : κ} (h : k ∈ keys) :
    ∃ i, index_map keys k = some i := by
  rcases heq : index_map keys k with - | i
  · exact absurd (index_map_eq_none.mp heq) (not_not_intro h)
  · exact ⟨i, rfl⟩

theorem assoc_lookup_map_self {β : Type} {l : List κ} {f : κ → β} {k : κ} :
    assoc_lookup (l.map (fun b => (b, f b))) k = if k ∈ l then some (f k) else none := by
  induction l with
  | nil => simp [assoc_lookup]
  | cons a l ih =>
    rw [List.map_cons, assoc_lookup]
    by_cases h : a = k
    · subst h
      simp
    · rw [if_neg h, ih]
      by_cases hk : k ∈ l
      · rw [if_pos hk, if_pos (List.mem_cons_of_mem _ hk)]
      · have hnotc : k ∉ a :: l := by
          intro hc
          rcases List.mem_cons.mp hc with rfl | hc
          · exact h rfl
          · exact hk hc
        rw [if_neg hk, if_neg hnotc]

theorem assoc_lookup_filter {β : Type} {m : List (κ × β)} {keys : List κ} {k : κ}
    (hk : k ∈ keys) :
    assoc_lookup (m.filter (fun p => p.1 ∈ keys)) k = assoc_lookup m k := by
  induction m with
  | nil => simp [assoc_lookup]
  | cons p m ih =>
    by_cases hmem : p.1 ∈ keys
    · rw [List.filter_cons_of_pos (by simpa using hmem), assoc_lookup, assoc_lookup, ih]
    · have hne : p.1 ≠ k := fun h => hmem (h ▸ hk)
      rw [List.filter_cons_of_neg (by simpa using hmem), assoc_lookup, if_neg hne, ih]

theorem vector_from_dict_some {keys : List κ} {m : List (κ × ℝ)} {silent : Bool}
    (h : silent = true ∨ ∀ p ∈ m, p.1 ∈ keys) :
    vector_from_dict keys m silent =
      some (keys.map (fun k => (assoc_lookup m k).getD 0)) := by
  rw [vector_from_dict, if_neg]
  rintro ⟨hs, p, hp, hpk⟩
  rcases h with h | h
  · rw [h] at hs
    simp at hs
  · exact hpk (h p hp)

theorem vector_from_dict_none {keys : List κ} {m : List (κ × ℝ)}
    (h : ∃ p ∈ m, p.1 ∉ keys) :
    vector_from_dict keys m false = none := by
  rw [vector_from_dict, if_pos ⟨rfl, h⟩]

theorem vfi_call_list_some {keys input : List κ} {silent : Bool}
    (h : silent = true ∨ ∀ b ∈ input, b ∈ keys) :
    vfi_call_list keys silent input =
      some (keys.map (fun k => if k ∈ input then (1 : ℝ) else 0)) := by
  rw [vfi_call_list, vector_from_dict_some]
  · congr 1
    refine List.map_congr_left (fun k _ => ?_)
    rw [assoc_lookup_map_self]
    by_cases hk : k ∈ input
    · rw [if_pos ((mem_first_occurrences input k).mpr hk), if_pos hk, Option.getD_some]
    · rw [if_neg (fun hc => hk ((mem_first_occurrences input k).mp hc)), if_neg hk,
        Option.getD_none]
  · rcases h with h | h
    · exact Or.inl h
    · refine Or.inr (fun p hp => ?_)
      obtain ⟨b, hb, rfl⟩ := List.mem_map.mp hp
      exact h b ((mem_first_occurrences input b).mp hb)

theorem vfi_call_list_none {keys input : List κ} (h : ∃ b ∈ input, b ∉ keys) :
    vfi_call_list keys false input = none := by
  obtain ⟨b, hb, hbk⟩ := h
  exact vector_from_dict_none
    ⟨(b, 1), List.mem_map.mpr ⟨b, (mem_first_occurrences input b).mpr hb, rfl⟩, hbk⟩

end FTD

namespace FTD

variable {κ : Type} [DecidableEq κ]

theorem set_item_weights_eq (v : Vectorization κ) (m : List (κ × ℝ)) :
    v.set_item_weights m =
      some { v with item_weights_vector :=
        v.itemKeys.map (fun k => (assoc_lookup m k).getD 0) } := by
  rw [Vectorization.set_item_weights, vector_from_dict_some (Or.inl rfl), Option.map_some']

theorem set_bag_weights_eq (v : Vectorization κ) (m : List (List κ × ℝ))
    (h : ∀ p ∈ m, p.1 ∈ v.bagKeys) :
    v.set_bag_weights m =
      some { v with bag_weights_vector :=
        v.bagKeys.map (fun k => (assoc_lookup m k).getD 0) } := by
  rw [Vectorization.set_bag_weights, vector_from_dict_some (Or.inr h), Option.map_some']

theorem set_bag_weights_none (v : Vectorization κ) (m : List (List κ × ℝ))
    (h : ∃ p ∈ m, p.1 ∉ v.bagKeys) :
    v.set_bag_weights m = none := by
  rw [Vectorization.set_bag_weights, vector_from_dict_none h, Option.map_none']

theorem set_bag_weights_from_list_eq (v : Vectorization κ) (bags : List (List κ))
    (h : ∀ b ∈ bags, b ∈ v.bagKeys) :
    v.set_bag_weights_from_list bags =
      some { v with bag_weights_vector :=
        v.bagKeys.map (fun k => if k ∈ bags then (1 : ℝ) else 0) } := by
  rw [Vectorization.set_bag_weights_from_list, vfi_call_list_some (Or.inr h), Option.map_some']
  refine congrArg some ?_
  congr 1
  refine List.map_congr_left (fun k _ => ?_)
  by_cases hk : k ∈ bags
  · simp [hk]
  · simp [hk]

theorem set_item_weights_from_list_eq (v : Vectorization κ) (items : List κ) :
    v.set_item_weights_from_list items =
      some { v with item_weights_vector :=
        v.itemKeys.map (fun k => if k ∈ items then (1 : ℝ) else 0) } := by
  rw [Vectorization.set_item_weights_from_list, vfi_call_list_some (Or.inl rfl),
    Option.map_some']

theorem inner_sum_eq {bagKeys : List (List κ)} {wB : List ℝ} (hB : wB.length = bagKeys.length)
    (g : List κ → ℕ) (f : List κ → ℝ) :
    (List.zipWith (fun (m : ℕ) (x : ℝ) => (m : ℝ) * x) (bagKeys.map g)
      (List.zipWith (· * ·) wB (bagKeys.map f))).sum
    = ∑ j : Fin bagKeys.length,
        (g (bagKeys.get j) : ℝ) * (wB.getD j 0 * f (bagKeys.get j)) := by
  have hlisteq : List.zipWith (fun (m : ℕ) (x : ℝ) => (m : ℝ) * x) (bagKeys.map g)
      (List.zipWith (· * ·) wB (bagKeys.map f))
      = List.ofFn (fun j : Fin bagKeys.length =>
          (g (bagKeys.get j) : ℝ) * (wB.getD j 0 * f (bagKeys.get j))) := by
    apply List.ext_getElem
    · simp [hB]
    · intro n h1 h2
      have hn : n < bagKeys.length := by simpa using h2
      have hnw : n < wB.length := by rw [hB]; exact hn
      simp only [List.getElem_zipWith, List.getElem_map, List.getElem_ofFn,
        List.get_eq_getElem, List.getD_eq_getElem?_getD, List.getElem?_eq_getElem hnw,
        Option.getD_some]
  rw [hlisteq, List.sum_ofFn]

theorem call_formula {v : Vectorization κ}
    (hM : v.item_bag_matrix = matrix_from_bags v.itemKeys v.bagKeys)
    (hI : v.item_weights_vector.length = v.itemKeys.length)
    (hB : v.bag_weights_vector.length = v.bagKeys.length)
    {qbags : List (List κ)} (hq : ∀ b ∈ qbags, b ∈ v.bagKeys) :
    v.call qbags = some (List.ofFn (fun i : Fin v.itemKeys.length =>
      v.item_weights_vector.getD i 0 *
        ∑ j : Fin v.bagKeys.length,
          if v.bagKeys.get j ∈ qbags then
            v.bag_weights_vector.getD j 0 * ((v.bagKeys.get j).count (v.itemKeys.get i) : ℝ)
          else 0)) := by
  rw [Vectorization.call, vfi_call_list_some (Or.inr hq), Option.map_some']
  congr 1
  rw [dot_matrix_dot_products, hM, matrix_from_bags, List.map_map]
  apply List.ext_getElem
  · simp [hI]
  · intro n h1 h2
    have hni : n < v.itemKeys.length := by simpa using h2
    have hnw : n < v.item_weights_vector.length := by rw [hI]; exact hni
    rw [List.getElem_zipWith, List.getElem_ofFn, List.getElem_map]
    simp only [Function.comp, List.get_eq_getElem]
    rw [inner_sum_eq hB]
    congr 1
    · rw [List.getD_eq_getElem?_getD, List.getElem?_eq_getElem hnw, Option.getD_some]
    · refine Finset.sum_congr rfl (fun j _ => ?_)
      simp only [List.get_eq_getElem]
      by_cases hj : v.bagKeys[(j : ℕ)] ∈ qbags
      · rw [if_pos hj, if_pos hj, mul_one]
        ring
      · rw [if_neg hj, if_neg hj, mul_zero, mul_zero]

end FTD

namespace FTD

variable {κ : Type} [DecidableEq κ]

theorem get_item_weight_none {v : Vectorization κ} {it : κ} (h : it ∉ v.itemKeys) :
    v.get_item_weight it = none := by
  rw [Vectorization.get_item_weight, index_map_eq_none.mpr h]

theorem get_bag_weight_none {v : Vectorization κ} {b : List κ} (h : b ∉ v.bagKeys) :
    v.get_bag_weight b = none := by
  rw [Vectorization.get_bag_weight, index_map_eq_none.mpr h]

theorem get_item_weight_of_map {v : Vectorization κ} {f : κ → ℝ}
    (hw : v.item_weights_vector = v.itemKeys.map f) {it : κ} (hit : it ∈ v.itemKeys) :
    v.get_item_weight it = some (f it) := by
  obtain ⟨i, hi⟩ := index_map_isSome_of_mem hit
  obtain ⟨hlt, hget⟩ := index_map_some hi
  rw [Vectorization.get_item_weight, hi]
  show v.item_weights_vector[i]? = some (f it)
  rw [hw, List.getElem?_map, List.getElem?_eq_getElem hlt, Option.map_some']
  rw [List.get_eq_getElem] at hget
  rw [hget]

theorem get_bag_weight_of_map {v : Vectorization κ} {f : List κ → ℝ}
    (hw : v.bag_weights_vector = v.bagKeys.map f) {b : List κ} (hb : b ∈ v.bagKeys) :
    v.get_bag_weight b = some (f b) := by
  obtain ⟨i, hi⟩ := index_map_isSome_of_mem hb
  obtain ⟨hlt, hget⟩ := index_map_some hi
  rw [Vectorization.get_bag_weight, hi]
  show v.bag_weights_vector[i]? = some (f b)
  rw [hw, List.getElem?_map, List.getElem?_eq_getElem hlt, Option.map_some']
  rw [List.get_eq_getElem] at hget
  rw [hget]

theorem count_bags_eq_countP {v : Vectorization κ}
    (hM : v.item_bag_matrix = matrix_from_bags v.itemKeys v.bagKeys)
    {it : κ} (hit : it ∈ v.itemKeys) :
    v.count_bags_containing_item it = v.bagKeys.countP (fun b => it ∈ b) := by
  obtain ⟨i, hi⟩ := index_map_isSome_of_mem hit
  obtain ⟨hlt, hget⟩ := index_map_some hi
  rw [List.get_eq_getElem] at hget
  rw [Vectorization.count_bags_containing_item, if_pos hit, hi, Option.getD_some,
    count_nonzero_entries_in_matrix_row, hM, matrix_from_bags,
    List.getD_eq_getElem?_getD, List.getElem?_map, List.getElem?_eq_getElem hlt,
    Option.map_some', Option.getD_some, List.countP_map]
  refine List.countP_congr (fun b _ => ?_)
  simp [Function.comp, hget, List.count_eq_zero]

end FTD

namespace FTD

variable {κ : Type} [DecidableEq κ]

theorem init_bag_weights_fields (v : Vectorization κ) (bags : List (List κ)) (tfidf : Bool)
    (h : ∀ b ∈ bags, b ∈ v.bagKeys) :
    ∃ fB : List κ → ℝ, v.init_bag_weights_vector bags tfidf =
      some { v with bag_weights_vector := v.bagKeys.map fB } := by
  cases tfidf
  · refine ⟨fun k => if k ∈ bags then 1 else 0, ?_⟩
    simp only [Vectorization.init_bag_weights_vector, Bool.false_eq_true, if_false]
    exact set_bag_weights_from_list_eq v bags h
  · refine ⟨fun k => (assoc_lookup v.tfidf_bag_weights k).getD 0, ?_⟩
    simp only [Vectorization.init_bag_weights_vector, if_true]
    refine set_bag_weights_eq v _ (fun p hp => ?_)
    obtain ⟨b, hb, rfl⟩ := List.mem_map.mp hp
    exact hb

theorem init_item_weights_fields (v : Vectorization κ) (itw : Option (List (κ × ℝ)))
    (tfidf : Bool) :
    ∃ fI : κ → ℝ, v.init_item_weights_vector itw tfidf =
      some { v with item_weights_vector := v.itemKeys.map fI } := by
  rcases itw with - | m
  · cases tfidf
    · refine ⟨fun k => if k ∈ v.itemKeys then 1 else 0, ?_⟩
      simp only [Vectorization.init_item_weights_vector, Bool.false_eq_true, if_false]
      exact set_item_weights_from_list_eq v v.itemKeys
    · refine ⟨fun k => (assoc_lookup v.tfidf_item_weights k).getD 0, ?_⟩
      simp only [Vectorization.init_item_weights_vector, if_true]
      exact set_item_weights_eq v _
  · exact ⟨fun k => (assoc_lookup m k).getD 0, set_item_weights_eq v m⟩

theorem mk_fields (bags : List (List κ)) (itw : Option (List (κ × ℝ))) (tfidf : Bool) :
    ∃ v : Vectorization κ, mkVectorization bags itw tfidf = some v ∧
      v.itemKeys = first_occurrences bags.flatten ∧
      v.bagKeys = first_occurrences bags ∧
      v.item_bag_matrix = matrix_from_bags v.itemKeys v.bagKeys ∧
      (∃ fB : List κ → ℝ, v.bag_weights_vector = v.bagKeys.map fB) ∧
      (∃ fI : κ → ℝ, v.item_weights_vector = v.itemKeys.map fI) := by
  obtain ⟨fB, hB⟩ := init_bag_weights_fields
    { itemKeys := first_occurrences bags.flatten
      bagKeys := first_occurrences bags
      item_bag_matrix := matrix_from_bags (first_occurrences bags.flatten) (first_occurrences bags)
      bag_weights_vector := []
      item_weights_vector := [] } bags tfidf
    (fun b hb => (mem_first_occurrences bags b).mpr hb)
  obtain ⟨fI, hI⟩ := init_item_weights_fields
    { itemKeys := first_occurrences bags.flatten
      bagKeys := first_occurrences bags
      item_bag_matrix := matrix_from_bags (first_occurrences bags.flatten) (first_occurrences bags)
      bag_weights_vector := (first_occurrences bags).map fB
      item_weights_vector := [] } itw tfidf
  refine ⟨{ itemKeys := first_occurrences bags.flatten
            bagKeys := first_occurrences bags
            item_bag_matrix :=
              matrix_from_bags (first_occurrences bags.flatten) (first_occurrences bags)
            bag_weights_vector := (first_occurrences bags).map fB
            item_weights_vector := (first_occurrences bags.flatten).map fI },
    ?_, rfl, rfl, rfl, ⟨fB, rfl⟩, ⟨fI, rfl⟩⟩
  rw [mkVectorization, hB, Option.some_bind, hI]

end FTD

namespace FTD

theorem zipWith_sub_self (l : List ℝ) :
    List.zipWith (· - ·) l l = l.map (fun _ => (0 : ℝ)) := by
  induction l with
  | nil => rfl
  | cons a l ih => simp [ih]

theorem mixture_self (p : List ℝ) : mixture_from_probabilities p p = p := by
  induction p with
  | nil => rfl
  | cons a l ih =>
    rw [mixture_from_probabilities, List.zipWith_cons_cons]
    rw [mixture_from_probabilities] at ih
    rw [ih]
    congr 1
    ring

theorem scalar_product_zero_right {a b : List ℝ} (hb : ∀ x ∈ b, x = 0) :
    scalar_product a b = 0 := by
  induction a generalizing b with
  | nil => rfl
  | cons x a ih =>
    cases b with
    | nil => rfl
    | cons y b =>
      rw [scalar_product, List.zipWith_cons_cons, List.sum_cons]
      rw [hb y (List.mem_cons_self y b), mul_zero, zero_add]
      exact ih (fun z hz => hb z (List.mem_cons_of_mem _ hz))

theorem jsd_distribution_self_mean (p : List ℝ) :
    (jensen_shannon_distribution_from_probabilities p p).get_mean = 0 := by
  rw [Distribution.get_mean, Distribution.get_moment]
  refine scalar_product_zero_right (fun x hx => ?_)
  simp only [jensen_shannon_distribution_from_probabilities, mixture_self,
    zipWith_sub_self, concatenate_vectors, List.map_append, List.mem_append,
    List.mem_map, List.map_map] at hx
  rcases hx with ⟨y, -, rfl⟩ | ⟨y, -, rfl⟩ <;> simp

theorem jsd_self (v : List ℝ) : jensenShannonDistance v v = 0 := by
  rw [jensenShannonDistance, jsd_distribution_self_mean, Real.sqrt_zero]

end FTD

namespace FTD

variable {κ : Type} [DecidableEq κ]

/-- C3: for every nonzero nonnegative vector `v` (zero components allowed),
`JensenShannonDistance` applied to `(v, v)` returns exactly `0`. -/
theorem spec_C3_js_distance_self_zero (v : List ℝ) (h0 : ∃ x ∈ v, x ≠ 0)
    (hnn : ∀ x ∈ v, 0 ≤ x) :
    jensenShannonDistance v v = 0 :=
  jsd_self v

/-- Witness for C3 at the concrete vector `[1, 0, 2]`. -/
theorem spec_C3_witness :
    (∃ x ∈ ([1, 0, 2] : List ℝ), x ≠ 0) ∧ (∀ x ∈ ([1, 0, 2] : List ℝ), 0 ≤ x) ∧
      jensenShannonDistance [1, 0, 2] [1, 0, 2] = 0 :=
  ⟨⟨1, by norm_num, by norm_num⟩, by intro x hx; fin_cases hx <;> norm_num,
    spec_C3_js_distance_self_zero [1, 0, 2] ⟨1, by norm_num, by norm_num⟩
      (by intro x hx; fin_cases hx <;> norm_num)⟩

/-- C2 (code bug evaluation): `first_partial_gradient` divides the
information-gain vector by `4 * distance(v0, v1)` with no special case, so
at `vector0 = vector1 = [1, 1]` the divisor is `0` and the numpy result is
the undefined NaN vector (modelled `none`), not the zero vector the
specification promises. -/
theorem spec_C2_gradient_at_equal_vectors_undefined :
    firstPartialGradient [(1 : ℝ), 1] [(1 : ℝ), 1] = none := by
  simp [firstPartialGradient, jsd_self]

/-- C1: for every Vectorization built from an initial bag collection and
every queried collection of bags drawn from it, the returned vector has, at
the index of each item `i`, the value `item_weight[i]` times the sum over
bags `j` of the queried collection of `bag_weight[j] * M[i, j]`. -/
theorem spec_C1_projection_formula (bags0 : List (List κ)) (itw : Option (List (κ × ℝ)))
    (tfidf : Bool) (qbags : List (List κ)) (hq : ∀ b ∈ qbags, b ∈ bags0) :
    ∃ v : Vectorization κ, mkVectorization bags0 itw tfidf = some v ∧
      v.call qbags = some (List.ofFn (fun i : Fin v.itemKeys.length =>
        v.item_weights_vector.getD i 0 *
          ∑ j : Fin v.bagKeys.length,
            if v.bagKeys.get j ∈ qbags then
              v.bag_weights_vector.getD j 0 * ((v.bagKeys.get j).count (v.itemKeys.get i) : ℝ)
            else 0)) := by
  obtain ⟨v, hmk, hik, hbk, hM, ⟨fB, hfB⟩, ⟨fI, hfI⟩⟩ := mk_fields bags0 itw tfidf
  refine ⟨v, hmk, call_formula hM ?_ ?_ ?_⟩
  · rw [hfI, List.length_map]
  · rw [hfB, List.length_map]
  · intro b hb
    rw [hbk]
    exact (mem_first_occurrences bags0 b).mpr (hq b hb)

/-- Witness for C1 at the one-bag collection `[['x']]` queried with itself. -/
theorem spec_C1_witness :
    (∀ b ∈ ([['x']] : List (List Char)), b ∈ ([['x']] : List (List Char))) ∧
    (∃ v : Vectorization Char, mkVectorization [['x']] none false = some v ∧
      v.call [['x']] = some (List.ofFn (fun i : Fin v.itemKeys.length =>
        v.item_weights_vector.getD i 0 *
          ∑ j : Fin v.bagKeys.length,
            if v.bagKeys.get j ∈ ([['x']] : List (List Char)) then
              v.bag_weights_vector.getD j 0 *
                ((v.bagKeys.get j).count (v.itemKeys.get i) : ℝ)
            else 0))) :=
  ⟨fun _ hb => hb, spec_C1_projection_formula [['x']] none false [['x']] (fun _ hb => hb)⟩

end FTD

namespace FTD

variable {κ : Type} [DecidableEq κ]

theorem assoc_lookup_eq_none_of_not_mem {β : Type} {m : List (κ × β)} {k : κ}
    (h : k ∉ m.map Prod.fst) : assoc_lookup m k = none := by
  induction m with
  | nil => rfl
  | cons p m ih =>
    rw [List.map_cons, List.mem_cons, not_or] at h
    rw [assoc_lookup, if_neg (fun he => h.1 he.symm), ih h.2]

/-- C5: `set_item_weights(mapping)` fully replaces the item-weight vector:
every known item bound in the mapping gets exactly its mapped weight, and
every known item omitted from the mapping gets weight `0`. -/
theorem spec_C5_set_item_weights_full_replace (v : Vectorization κ) (m : List (κ × ℝ)) :
    ∃ v2 : Vectorization κ, v.set_item_weights m = some v2 ∧
      (∀ it w, it ∈ v2.itemKeys → assoc_lookup m it = some w →
        v2.get_item_weight it = some w) ∧
      (∀ it, it ∈ v2.itemKeys → it ∉ m.map Prod.fst → v2.get_item_weight it = some 0) := by
  refine ⟨_, set_item_weights_eq v m, ?_, ?_⟩
  · intro it w hit hlk
    rw [get_item_weight_of_map rfl hit, hlk, Option.getD_some]
  · intro it hit hnm
    rw [get_item_weight_of_map rfl hit, assoc_lookup_eq_none_of_not_mem hnm, Option.getD_none]

/-- Witness for C5: a one-item space with the mapping binding `x` to `7`
and a second, unknown-key-free check on the empty mapping. -/
theorem spec_C5_witness :
    ∃ v2 : Vectorization Char,
      (Vectorization.set_item_weights
        { itemKeys := ['x'], bagKeys := [['x']], item_bag_matrix := [[1]],
          bag_weights_vector := [1], item_weights_vector := [1] } [('x', 7)]) = some v2 ∧
      (∀ it w, it ∈ v2.itemKeys → assoc_lookup [('x', (7 : ℝ))] it = some w →
        v2.get_item_weight it = some w) ∧
      (∀ it, it ∈ v2.itemKeys → it ∉ ([('x', (7 : ℝ))].map Prod.fst) →
        v2.get_item_weight it = some 0) :=
  spec_C5_set_item_weights_full_replace
    { itemKeys := ['x'], bagKeys := [['x']], item_bag_matrix := [[1]],
      bag_weights_vector := [1], item_weights_vector := [1] } [('x', 7)]

/-- C7: the weight getters raise a value error (modelled `none`) exactly on
keys absent from the corresponding index space, and on a present key they
return the entry of the current weight vector at the key's index. -/
theorem spec_C7_weight_getters (bags0 : List (List κ)) (itw : Option (List (κ × ℝ)))
    (tfidf : Bool) (it : κ) (b : List κ) :
    ∃ v : Vectorization κ, mkVectorization bags0 itw tfidf = some v ∧
      (it ∉ v.itemKeys → v.get_item_weight it = none) ∧
      (b ∉ v.bagKeys → v.get_bag_weight b = none) ∧
      (it ∈ v.itemKeys → ∃ i, ∃ hi : i < v.item_weights_vector.length,
        index_map v.itemKeys it = some i ∧
          v.get_item_weight it = some (v.item_weights_vector.get ⟨i, hi⟩)) ∧
      (b ∈ v.bagKeys → ∃ j, ∃ hj : j < v.bag_weights_vector.length,
        index_map v.bagKeys b = some j ∧
          v.get_bag_weight b = some (v.bag_weights_vector.get ⟨j, hj⟩)) := by
  obtain ⟨v, hmk, hik, hbk, hM, ⟨fB, hfB⟩, ⟨fI, hfI⟩⟩ := mk_fields bags0 itw tfidf
  refine ⟨v, hmk, fun h => get_item_weight_none h, fun h => get_bag_weight_none h, ?_, ?_⟩
  · intro hit
    obtain ⟨i, hi⟩ := index_map_isSome_of_mem hit
    obtain ⟨hlt, hget⟩ := index_map_some hi
    rw [List.get_eq_getElem] at hget
    have hlen : i < v.item_weights_vector.length := by
      rw [hfI, List.length_map]
      exact hlt
    have h1 : v.item_weights_vector[i]? = some (fI it) := by
      rw [hfI, List.getElem?_map, List.getElem?_eq_getElem hlt, Option.map_some', hget]
    have h2 : v.item_weights_vector[i]? = some (v.item_weights_vector.get ⟨i, hlen⟩) := by
      rw [List.getElem?_eq_getElem hlen, List.get_eq_getElem]
    refine ⟨i, hlen, hi, ?_⟩
    rw [get_item_weight_of_map hfI hit]
    rw [h1] at h2
    exact h2
  · intro hb
    obtain ⟨j, hj⟩ := index_map_isSome_of_mem hb
    obtain ⟨hlt, hget⟩ := index_map_some hj
    rw [List.get_eq_getElem] at hget
    have hlen : j < v.bag_weights_vector.length := by
      rw [hfB, List.length_map]
      exact hlt
    have h1 : v.bag_weights_vector[j]? = some (fB b) := by
      rw [hfB, List.getElem?_map, List.getElem?_eq_getElem hlt, Option.map_some', hget]
    have h2 : v.bag_weights_vector[j]? = some (v.bag_weights_vector.get ⟨j, hlen⟩) := by
      rw [List.getElem?_eq_getElem hlen, List.get_eq_getElem]
    refine ⟨j, hlen, hj, ?_⟩
    rw [get_bag_weight_of_map hfB hb]
    rw [h1] at h2
    exact h2

/-- Witness for C7 at the one-bag collection `[['x']]`. -/
theorem spec_C7_witness :
    ∃ v : Vectorization Char, mkVectorization [['x']] none false = some v ∧
      ('x' ∉ v.itemKeys → v.get_item_weight 'x' = none) ∧
      (['x'] ∉ v.bagKeys → v.get_bag_weight ['x'] = none) ∧
      ('x' ∈ v.itemKeys → ∃ i, ∃ hi : i < v.item_weights_vector.length,
        index_map v.itemKeys 'x' = some i ∧
          v.get_item_weight 'x' = some (v.item_weights_vector.get ⟨i, hi⟩)) ∧
      (['x'] ∈ v.bagKeys → ∃ j, ∃ hj : j < v.bag_weights_vector.length,
        index_map v.bagKeys ['x'] = some j ∧
          v.get_bag_weight ['x'] = some (v.bag_weights_vector.get ⟨j, hj⟩)) :=
  spec_C7_weight_getters [['x']] none false 'x' ['x']

end FTD

namespace FTD

variable {κ : Type} [DecidableEq κ]

/-- C9: the unknown-key policy is asymmetric: projecting a collection with a
bag outside the initial bags fails (bag space strict, silent false), and
`set_bag_weights` fails on unknown bags by default, whereas
`set_item_weights` never fails and silently ignores unknown items (item
space silent, unknown bindings contribute nothing). -/
theorem spec_C9_unknown_key_policy (bags0 : List (List κ)) (itw : Option (List (κ × ℝ)))
    (tfidf : Bool) :
    ∃ v : Vectorization κ, mkVectorization bags0 itw tfidf = some v ∧
      (∀ qbags : List (List κ), (∃ b ∈ qbags, b ∉ v.bagKeys) → v.call qbags = none) ∧
      (∀ mB : List (List κ × ℝ), (∃ p ∈ mB, p.1 ∉ v.bagKeys) →
        v.set_bag_weights mB = none) ∧
      (∀ mI : List (κ × ℝ), ∃ v2 : Vectorization κ, v.set_item_weights mI = some v2 ∧
        v.set_item_weights (mI.filter (fun p => p.1 ∈ v.itemKeys)) = some v2) := by
  obtain ⟨v, hmk, -, -, -, -, -⟩ := mk_fields bags0 itw tfidf
  refine ⟨v, hmk, ?_, ?_, ?_⟩
  · intro qbags h
    rw [Vectorization.call, vfi_call_list_none h, Option.map_none']
  · intro mB h
    exact set_bag_weights_none v mB h
  · intro mI
    refine ⟨_, set_item_weights_eq v mI, ?_⟩
    rw [set_item_weights_eq v (mI.filter (fun p => p.1 ∈ v.itemKeys))]
    refine congrArg some ?_
    congr 1
    exact List.map_congr_left (fun k hk => by rw [assoc_lookup_filter hk])

/-- Witness for C9 at the one-bag collection `[['x']]`, exercising the
failing bag query `[['y']]`, the failing bag mapping, and an item mapping
with the unknown key `y`. -/
theorem spec_C9_witness :
    (∃ v : Vectorization Char, mkVectorization [['x']] none false = some v ∧
      (∀ qbags : List (List Char), (∃ b ∈ qbags, b ∉ v.bagKeys) → v.call qbags = none) ∧
      (∀ mB : List (List Char × ℝ), (∃ p ∈ mB, p.1 ∉ v.bagKeys) →
        v.set_bag_weights mB = none) ∧
      (∀ mI : List (Char × ℝ), ∃ v2 : Vectorization Char,
        v.set_item_weights mI = some v2 ∧
        v.set_item_weights (mI.filter (fun p => p.1 ∈ v.itemKeys)) = some v2)) :=
  spec_C9_unknown_key_policy [['x']] none false

/-- C10: `count_bags_containing_item` returns `0` for an item absent from
the item space (where the weight getter raises), and for a present item it
returns the number of initial bags containing the item, i.e. the number of
nonzero multiplicity entries in the item's row of the incidence matrix. -/
theorem spec_C10_count_bags_containing_item (bags0 : List (List κ))
    (itw : Option (List (κ × ℝ))) (tfidf : Bool) (it : κ) :
    ∃ v : Vectorization κ, mkVectorization bags0 itw tfidf = some v ∧
      (it ∉ v.itemKeys →
        v.count_bags_containing_item it = 0 ∧ v.get_item_weight it = none) ∧
      (it ∈ v.itemKeys →
        v.count_bags_containing_item it = v.bagKeys.countP (fun b => it ∈ b)) := by
  obtain ⟨v, hmk, -, -, hM, -, -⟩ := mk_fields bags0 itw tfidf
  refine ⟨v, hmk, ?_, ?_⟩
  · intro h
    exact ⟨by rw [Vectorization.count_bags_containing_item, if_neg h], get_item_weight_none h⟩
  · intro h
    exact count_bags_eq_countP hM h

/-- Witness for C10 at the collection `[['x']]` and the absent item `y`. -/
theorem spec_C10_witness :
    ∃ v : Vectorization Char, mkVectorization [['x']] none false = some v ∧
      ('y' ∉ v.itemKeys →
        v.count_bags_containing_item 'y' = 0 ∧ v.get_item_weight 'y' = none) ∧
      ('y' ∈ v.itemKeys →
        v.count_bags_containing_item 'y' = v.bagKeys.countP (fun b => 'y' ∈ b)) :=
  spec_C10_count_bags_containing_item [['x']] none false 'y'

end FTD

namespace FTD

/-- C8: end-to-end example from the class docstring: for the bags
`[('x','y','x'), ('y','y','y'), ('x','x','y','y')]`, the unweighted
vectorization of the first two bags is `[2, 4]` over the items `x, y` in
first-occurrence order; with item weights `{x: 3, y: 7}` it is `[6, 28]`;
after `set_item_weights({x: 2, y: 3})` it is `[4, 12]`. -/
theorem spec_C8_end_to_end :
    (∃ v : Vectorization Char,
      mkVectorization ([['x','y','x'],['y','y','y'],['x','x','y','y']] : List (List Char))
        none false = some v ∧
      v.call [['x','y','x'],['y','y','y']] = some [2, 4]) ∧
    (∃ v : Vectorization Char,
      mkVectorization ([['x','y','x'],['y','y','y'],['x','x','y','y']] : List (List Char))
        (some [('x', 3), ('y', 7)]) false = some v ∧
      v.call [['x','y','x'],['y','y','y']] = some [6, 28]) ∧
    (∃ v v2 : Vectorization Char,
      mkVectorization ([['x','y','x'],['y','y','y'],['x','x','y','y']] : List (List Char))
        (some [('x', 3), ('y', 7)]) false = some v ∧
      v.set_item_weights [('x', 2), ('y', 3)] = some v2 ∧
      v2.call [['x','y','x'],['y','y','y']] = some [4, 12]) := by
  refine ⟨⟨{ itemKeys := ['x','y'],
             bagKeys := [['x','y','x'],['y','y','y'],['x','x','y','y']],
             item_bag_matrix := [[2,0,2],[1,3,2]],
             bag_weights_vector := [1,1,1],
             item_weights_vector := [1,1] }, ?_, ?_⟩,
    ⟨{ itemKeys := ['x','y'],
       bagKeys := [['x','y','x'],['y','y','y'],['x','x','y','y']],
       item_bag_matrix := [[2,0,2],[1,3,2]],
       bag_weights_vector := [1,1,1],
       item_weights_vector := [3,7] }, ?_, ?_⟩,
    ⟨{ itemKeys := ['x','y'],
       bagKeys := [['x','y','x'],['y','y','y'],['x','x','y','y']],
       item_bag_matrix := [[2,0,2],[1,3,2]],
       bag_weights_vector := [1,1,1],
       item_weights_vector := [3,7] },
     { itemKeys := ['x','y'],
       bagKeys := [['x','y','x'],['y','y','y'],['x','x','y','y']],
       item_bag_matrix := [[2,0,2],[1,3,2]],
       bag_weights_vector := [1,1,1],
       item_weights_vector := [2,3] }, ?_, ?_, ?_⟩⟩
  · simp only [mkVectorization, Vectorization.init_bag_weights_vector,
      Vectorization.init_item_weights_vector, Bool.false_eq_true, if_false,
      Vectorization.set_bag_weights_from_list, Vectorization.set_item_weights_from_list,
      vfi_call_list, vector_from_dict]
    norm_num +decide [first_occurrences, assoc_lookup, matrix_from_bags, Option.bind]
  · simp only [Vectorization.call, vfi_call_list, vector_from_dict]
    norm_num +decide [first_occurrences, assoc_lookup, dot_matrix_dot_products]
  · simp only [mkVectorization, Vectorization.init_bag_weights_vector,
      Vectorization.init_item_weights_vector, Bool.false_eq_true, if_false,
      Vectorization.set_bag_weights_from_list, Vectorization.set_item_weights,
      vfi_call_list, vector_from_dict]
    norm_num +decide [first_occurrences, assoc_lookup, matrix_from_bags, Option.bind]
  · simp only [Vectorization.call, vfi_call_list, vector_from_dict]
    norm_num +decide [first_occurrences, assoc_lookup, dot_matrix_dot_products]
  · simp only [mkVectorization, Vectorization.init_bag_weights_vector,
      Vectorization.init_item_weights_vector, Bool.false_eq_true, if_false,
      Vectorization.set_bag_weights_from_list, Vectorization.set_item_weights,
      vfi_call_list, vector_from_dict]
    norm_num +decide [first_occurrences, assoc_lookup, matrix_from_bags, Option.bind]
  · simp only [Vectorization.set_item_weights, vector_from_dict]
    norm_num +decide [assoc_lookup]
  · simp only [Vectorization.call, vfi_call_list, vector_from_dict]
    norm_num +decide [first_occurrences, assoc_lookup, dot_matrix_dot_products]

end FTD

namespace FTD

variable {κ : Type} [DecidableEq κ]

/-- C4: with `tfidf=True` and no explicit item weights, every item's weight
is `log(N_bags / N_bags_containing_item)` through the guarded log-ratio; it
is `0` for an item contained in every bag, and the guard clamps the weight
to `0` (instead of a division by zero) when the denominator is `0`. -/
theorem spec_C4_tfidf_item_weights (bags0 : List (List κ)) :
    ∃ v : Vectorization κ, mkVectorization bags0 none true = some v ∧
      (∀ it ∈ v.itemKeys, v.get_item_weight it =
        some (log_of_ratio_zero_if_null_denominator v.bagKeys.length
          (v.count_bags_containing_item it))) ∧
      (∀ it ∈ v.itemKeys, (∀ b ∈ v.bagKeys, it ∈ b) → v.get_item_weight it = some 0) ∧
      (∀ n : ℕ, log_of_ratio_zero_if_null_denominator n 0 = 0) := by
  obtain ⟨fB, hB⟩ := init_bag_weights_fields
    { itemKeys := first_occurrences bags0.flatten
      bagKeys := first_occurrences bags0
      item_bag_matrix := matrix_from_bags (first_occurrences bags0.flatten) (first_occurrences bags0)
      bag_weights_vector := []
      item_weights_vector := [] } bags0 true
    (fun b hb => (mem_first_occurrences bags0 b).mpr hb)
  have hitem := set_item_weights_eq
    { itemKeys := first_occurrences bags0.flatten
      bagKeys := first_occurrences bags0
      item_bag_matrix := matrix_from_bags (first_occurrences bags0.flatten) (first_occurrences bags0)
      bag_weights_vector := (first_occurrences bags0).map fB
      item_weights_vector := [] }
    (Vectorization.tfidf_item_weights
      { itemKeys := first_occurrences bags0.flatten
        bagKeys := first_occurrences bags0
        item_bag_matrix := matrix_from_bags (first_occurrences bags0.flatten) (first_occurrences bags0)
        bag_weights_vector := (first_occurrences bags0).map fB
        item_weights_vector := [] })
  have hmk : mkVectorization bags0 none true =
      some { itemKeys := first_occurrences bags0.flatten
             bagKeys := first_occurrences bags0
             item_bag_matrix :=
               matrix_from_bags (first_occurrences bags0.flatten) (first_occurrences bags0)
             bag_weights_vector := (first_occurrences bags0).map fB
             item_weights_vector := (first_occurrences bags0.flatten).map (fun k =>
               (assoc_lookup (Vectorization.tfidf_item_weights
                 { itemKeys := first_occurrences bags0.flatten
                   bagKeys := first_occurrences bags0
                   item_bag_matrix := matrix_from_bags (first_occurrences bags0.flatten)
                     (first_occurrences bags0)
                   bag_weights_vector := (first_occurrences bags0).map fB
                   item_weights_vector := [] }) k).getD 0) } := by
    rw [mkVectorization, hB, Option.some_bind]
    simp only [Vectorization.init_item_weights_vector]
    exact hitem
  refine ⟨_, hmk, ?_⟩
  have h1 : ∀ it ∈ first_occurrences bags0.flatten,
      Vectorization.get_item_weight
        { itemKeys := first_occurrences bags0.flatten
          bagKeys := first_occurrences bags0
          item_bag_matrix :=
            matrix_from_bags (first_occurrences bags0.flatten) (first_occurrences bags0)
          bag_weights_vector := (first_occurrences bags0).map fB
          item_weights_vector := (first_occurrences bags0.flatten).map (fun k =>
            (assoc_lookup (Vectorization.tfidf_item_weights
              { itemKeys := first_occurrences bags0.flatten
                bagKeys := first_occurrences bags0
                item_bag_matrix := matrix_from_bags (first_occurrences bags0.flatten)
                  (first_occurrences bags0)
                bag_weights_vector := (first_occurrences bags0).map fB
                item_weights_vector := [] }) k).getD 0) } it =
      some (log_of_ratio_zero_if_null_denominator (first_occurrences bags0).length
        (Vectorization.count_bags_containing_item
          { itemKeys := first_occurrences bags0.flatten
            bagKeys := first_occurrences bags0
            item_bag_matrix :=
              matrix_from_bags (first_occurrences bags0.flatten) (first_occurrences bags0)
            bag_weights_vector := (first_occurrences bags0).map fB
            item_weights_vector := (first_occurrences bags0.flatten).map (fun k =>
              (assoc_lookup (Vectorization.tfidf_item_weights
                { itemKeys := first_occurrences bags0.flatten
                  bagKeys := first_occurrences bags0
                  item_bag_matrix := matrix_from_bags (first_occurrences bags0.flatten)
                    (first_occurrences bags0)
                  bag_weights_vector := (first_occurrences bags0).map fB
                  item_weights_vector := [] }) k).getD 0) } it)) := by
    intro it hit
    rw [get_item_weight_of_map rfl hit]
    rw [Vectorization.tfidf_item_weights, assoc_lookup_map_self, if_pos hit, Option.getD_some]
    rfl
  refine ⟨fun it hit => h1 it hit, ?_, fun n => by
    rw [log_of_ratio_zero_if_null_denominator, if_pos rfl]⟩
  intro it hit hall
  rw [h1 it hit]
  have hcnt : Vectorization.count_bags_containing_item
      { itemKeys := first_occurrences bags0.flatten
        bagKeys := first_occurrences bags0
        item_bag_matrix :=
          matrix_from_bags (first_occurrences bags0.flatten) (first_occurrences bags0)
        bag_weights_vector := (first_occurrences bags0).map fB
        item_weights_vector := (first_occurrences bags0.flatten).map (fun k =>
          (assoc_lookup (Vectorization.tfidf_item_weights
            { itemKeys := first_occurrences bags0.flatten
              bagKeys := first_occurrences bags0
              item_bag_matrix := matrix_from_bags (first_occurrences bags0.flatten)
                (first_occurrences bags0)
              bag_weights_vector := (first_occurrences bags0).map fB
              item_weights_vector := [] }) k).getD 0) } it
      = (first_occurrences bags0).length := by
    rw [count_bags_eq_countP rfl hit]
    exact List.countP_eq_length.mpr (fun b hb => by simpa using hall b hb)
  have hn : (first_occurrences bags0).length ≠ 0 := by
    have hitf : it ∈ bags0.flatten := (mem_first_occurrences _ it).mp hit
    obtain ⟨b, hb, -⟩ := List.mem_flatten.mp hitf
    have hbB : b ∈ first_occurrences bags0 := (mem_first_occurrences bags0 b).mpr hb
    intro h0
    rw [List.length_eq_zero] at h0
    rw [h0] at hbB
    exact (List.not_mem_nil b) hbB
  rw [hcnt, log_of_ratio_zero_if_null_denominator, if_neg hn,
    div_self (by exact_mod_cast hn), Real.log_one]

/-- Witness for C4 at the one-bag collection `[['x']]`. -/
theorem spec_C4_witness :
    ∃ v : Vectorization Char, mkVectorization [['x']] none true = some v ∧
      (∀ it ∈ v.itemKeys, v.get_item_weight it =
        some (log_of_ratio_zero_if_null_denominator v.bagKeys.length
          (v.count_bags_containing_item it))) ∧
      (∀ it ∈ v.itemKeys, (∀ b ∈ v.bagKeys, it ∈ b) → v.get_item_weight it = some 0) ∧
      (∀ n : ℕ, log_of_ratio_zero_if_null_denominator n 0 = 0) :=
  spec_C4_tfidf_item_weights [['x']]

end FTD

namespace FTD

variable {κ : Type} [DecidableEq κ]

theorem zip_map_self {α β : Type} (l : List α) (g : α → β) :
    l.zip (l.map g) = l.map (fun a => (a, g a)) := by
  induction l with
  | nil => rfl
  | cons a l ih => simp [ih]

theorem getD_map_zero {α : Type} (l : List α) (h : α → ℝ) {j : ℕ} (hj : j < l.length) :
    (l.map h).getD j 0 = h (l.get ⟨j, hj⟩) := by
  rw [List.getD_eq_getElem?_getD, List.getElem?_map, List.getElem?_eq_getElem hj,
    Option.map_some', Option.getD_some, List.get_eq_getElem]

/-- C6: projection is linear in the bag weights: scaling every bag weight by
`c ≥ 0` through `set_bag_weights` scales the projected vector of any queried
collection by exactly `c`. -/
theorem spec_C6_projection_linear_in_bag_weights (bags0 : List (List κ))
    (itw : Option (List (κ × ℝ))) (tfidf : Bool) (c : ℝ) (hc : 0 ≤ c)
    (qbags : List (List κ)) (hq : ∀ b ∈ qbags, b ∈ bags0) :
    ∃ v v2 : Vectorization κ, ∃ out : List ℝ,
      mkVectorization bags0 itw tfidf = some v ∧
      v.call qbags = some out ∧
      v.set_bag_weights
        ((v.bagKeys.zip v.bag_weights_vector).map (fun p => (p.1, c * p.2))) = some v2 ∧
      v2.call qbags = some (out.map (fun x => c * x)) := by
  obtain ⟨v, hmk, hik, hbk, hM, ⟨fB, hfB⟩, ⟨fI, hfI⟩⟩ := mk_fields bags0 itw tfidf
  have hqv : ∀ b ∈ qbags, b ∈ v.bagKeys := fun b hb => by
    rw [hbk]
    exact (mem_first_occurrences bags0 b).mpr (hq b hb)
  have hIlen : v.item_weights_vector.length = v.itemKeys.length := by
    rw [hfI, List.length_map]
  have hBlen : v.bag_weights_vector.length = v.bagKeys.length := by
    rw [hfB, List.length_map]
  have hcall := call_formula hM hIlen hBlen hqv
  have hdict : (v.bagKeys.zip v.bag_weights_vector).map (fun p => (p.1, c * p.2))
      = v.bagKeys.map (fun b => (b, c * fB b)) := by
    rw [hfB, zip_map_self, List.map_map]
    rfl
  have hkeys : ∀ p ∈ v.bagKeys.map (fun b => (b, c * fB b)), p.1 ∈ v.bagKeys := by
    intro p hp
    obtain ⟨b, hb, rfl⟩ := List.mem_map.mp hp
    exact hb
  have hbw : v.bagKeys.map (fun k =>
        (assoc_lookup (v.bagKeys.map (fun b => (b, c * fB b))) k).getD 0)
      = v.bagKeys.map (fun b => c * fB b) :=
    List.map_congr_left (fun k hk => by
      rw [assoc_lookup_map_self, if_pos hk, Option.getD_some])
  have hset : v.set_bag_weights
      ((v.bagKeys.zip v.bag_weights_vector).map (fun p => (p.1, c * p.2)))
      = some { v with bag_weights_vector := v.bagKeys.map (fun b => c * fB b) } := by
    rw [hdict, set_bag_weights_eq v _ hkeys, hbw]
  have hB2 : (Vectorization.bag_weights_vector
        { v with bag_weights_vector := v.bagKeys.map (fun b => c * fB b) }).length
      = (Vectorization.bagKeys
        { v with bag_weights_vector := v.bagKeys.map (fun b => c * fB b) }).length := by
    show (v.bagKeys.map (fun b => c * fB b)).length = v.bagKeys.length
    rw [List.length_map]
  have hcall2 := call_formula
    (v := { v with bag_weights_vector := v.bagKeys.map (fun b => c * fB b) })
    hM hIlen hB2 hqv
  refine ⟨v, _, _, hmk, hcall, hset, ?_⟩
  rw [hcall2]
  refine congrArg some ?_
  rw [List.map_ofFn]
  refine congrArg List.ofFn (funext fun i => ?_)
  simp only [Function.comp]
  have hterm : ∀ j : Fin v.bagKeys.length,
      (if v.bagKeys.get j ∈ qbags then
        (v.bagKeys.map (fun b => c * fB b)).getD j 0 *
          ((v.bagKeys.get j).count (v.itemKeys.get i) : ℝ)
      else 0)
      = c * (if v.bagKeys.get j ∈ qbags then
          v.bag_weights_vector.getD j 0 *
            ((v.bagKeys.get j).count (v.itemKeys.get i) : ℝ)
        else 0) := by
    intro j
    by_cases hj : v.bagKeys.get j ∈ qbags
    · rw [if_pos hj, if_pos hj, getD_map_zero _ _ j.isLt, hfB, getD_map_zero _ _ j.isLt]
      simp only [Fin.eta]
      ring
    · rw [if_neg hj, if_neg hj, mul_zero]
  rw [Finset.sum_congr rfl (fun j _ => hterm j), ← Finset.mul_sum]
  ring

/-- Witness for C6 at the one-bag collection `[['x']]` with `c = 2`. -/
theorem spec_C6_witness :
    (0 : ℝ) ≤ 2 ∧ (∀ b ∈ ([['x']] : List (List Char)), b ∈ ([['x']] : List (List Char))) ∧
    (∃ v v2 : Vectorization Char, ∃ out : List ℝ,
      mkVectorization ([['x']] : List (List Char)) none false = some v ∧
      v.call [['x']] = some out ∧
      v.set_bag_weights
        ((v.bagKeys.zip v.bag_weights_vector).map (fun p => (p.1, 2 * p.2))) = some v2 ∧
      v2.call [['x']] = some (out.map (fun x => 2 * x))) :=
  ⟨by norm_num, fun _ hb => hb,
    spec_C6_projection_linear_in_bag_weights [['x']] none false 2 (by norm_num) [['x']]
      (fun _ hb => hb)⟩

end FTD
